import Mathlib

/-!
Verification of the quocca star-detection core against its design
specification.

This file is a shallow embedding of the Python sources

  * src/quocca/detection/detection.py
  * src/quocca/utilities/calibration.py

into Lean 4.  Pure numeric helpers (get_slice, the calibration lookup,
blob_func, the per-star result assembly of both detectors, the parameter
validation and sigma-refinement loop of fit_camera_params) are translated
directly.  Operations that cannot be embedded exactly (scipy's minimize,
skimage's gaussian, scipy's gaussian_laplace, numpy's exp) are abstracted
as function parameters of the embedding; each such parameter is documented
at its declaration.  Real (float) arithmetic is modelled by rational
arithmetic.
-/

namespace Quocca

/-! ### Generic list lemmas

Small facts about List.set / List.getD / folds used to reason about the
numpy result arrays, which the detectors fill by index. -/

theorem getD_set_ne {α : Type} (l : List α) (i j : ℕ) (a d : α) (h : i ≠ j) :
    (l.set i a).getD j d = l.getD j d := by
  induction l generalizing i j with
  | nil => rfl
  | cons b bs ih =>
    cases i with
    | zero =>
      cases j with
      | zero => exact absurd rfl h
      | succ j => rfl
    | succ i =>
      cases j with
      | zero => rfl
      | succ j => exact ih i j (by omega)

theorem getD_set_self {α : Type} (l : List α) (i : ℕ) (a d : α) (h : i < l.length) :
    (l.set i a).getD i d = a := by
  induction l generalizing i with
  | nil => simp at h
  | cons b bs ih =>
    cases i with
    | zero => rfl
    | succ i => exact ih i (by simpa using h)

theorem getD_append_left {α : Type} (l l₂ : List α) (i : ℕ) (d : α) (h : i < l.length) :
    (l ++ l₂).getD i d = l.getD i d := by
  induction l generalizing i with
  | nil => simp at h
  | cons b bs ih =>
    cases i with
    | zero => rfl
    | succ i => exact ih i (by simpa using h)

/-! ### Region extractor (detection.get_slice) -/

/-- Embedding of numpy's clip: np.clip(x, lo, hi) = min (max x lo) hi. -/
def clip (x lo hi : Int) : Int := min (max x lo) hi

/-- Python slice object with unit step: it selects indices i with
start ≤ i < stop (both bounds non-negative in every use below). -/
structure PySlice where
  start : Int
  stop : Int
deriving DecidableEq

/-- Index membership of an (integer) index in a slice. -/
def PySlice.covers (s : PySlice) (i : Int) : Prop :=
  s.start ≤ i ∧ i < s.stop

instance (s : PySlice) (i : Int) : Decidable (s.covers i) := by
  unfold PySlice.covers
  exact inferInstance

/-- Index membership of a natural-number array index in a slice. -/
def PySlice.coversN (s : PySlice) (i : ℕ) : Prop :=
  s.start ≤ (i : Int) ∧ (i : Int) < s.stop

instance (s : PySlice) (i : ℕ) : Decidable (s.coversN i) := by
  unfold PySlice.coversN
  exact inferInstance

/-- Embedding of np.round on a scalar: round half to even. -/
def np_round (q : ℚ) : Int :=
  let f := ⌊q⌋
  let r := q - (f : ℚ)
  if r < 1/2 then f
  else if 1/2 < r then f + 1
  else if f % 2 = 0 then f else f + 1

/-- Embedding of detection.get_slice.  The source rounds the centre
position to integers with np.round, then clips each bound with np.clip
to [0, shape - 1] and returns the pair of slices
(slice a_min a_max, slice b_min b_max); the first slice is built from
pos[1] and size[1] against shape[0], the second from pos[0] and size[0]
against shape[1], exactly as in the source. -/
def get_slice (pos : ℚ × ℚ) (size : Int × Int) (shape : Int × Int) :
    PySlice × PySlice :=
  let p0 := np_round pos.1
  let p1 := np_round pos.2
  let a_min := clip (p1 - size.2) 0 (shape.1 - 1)
  let a_max := clip (p1 + size.2 + 1) 0 (shape.1 - 1)
  let b_min := clip (p0 - size.1) 0 (shape.2 - 1)
  let b_max := clip (p0 + size.1 + 1) 0 (shape.2 - 1)
  (⟨a_min, a_max⟩, ⟨b_min, b_max⟩)

/-- Modelled from the spec claim wording (not from the source): the claim
asserts the returned ranges cover the inclusive window [c - d, c + d]
with each endpoint independently clamped to [0, dim - 1].  This is the
claimed inclusive index range for one axis, to be compared with what
get_slice actually returns. -/
def spec_range (c d dim : Int) : Int × Int :=
  (clip (c - d) 0 (dim - 1), clip (c + d) 0 (dim - 1))

/-! ### Calibration lookup (detection.get_calibration)

The yaml configuration file is modelled as an association list:
camera name to (method name to (timestamp to calibration value)).
Timestamps (astropy Time objects, linearly ordered, subtractable) are
modelled as integers, calibration values as rationals.  Python dict
iteration order is insertion order, matched by the list order here. -/

/-- Python dict key lookup on an association list with string keys:
some value when the key is present, none for a KeyError. -/
def dict_get {α : Type} (l : List (String × α)) (k : String) : Option α :=
  (l.find? (fun p => p.1 == k)).map (·.2)

/-- Python dict key lookup with integer (timestamp) keys. -/
def dict_get_int {α : Type} (l : List (Int × α)) (k : Int) : Option α :=
  (l.find? (fun p => p.1 == k)).map (·.2)

/-- Body of the chosen_key loop of get_calibration, for one entry p: the
entry's timestamp becomes the chosen key when the observation time is
strictly greater than it and either no key was chosen yet or it is
closer to the observation time than the currently chosen one (the source
compares time - t < time - times[chosen_key]). -/
def ck_step (time : Int) (chosen : Option Int) (p : Int × ℚ) : Option Int :=
  if time > p.1 then
    match chosen with
    | none => some p.1
    | some k => if time - p.1 < time - k then some p.1 else some k
  else chosen

/-- Embedding of the chosen_key loop of get_calibration: folds ck_step
over the calibration entries in dict iteration (insertion) order,
starting from None. -/
def chosen_key (calibration : List (Int × ℚ)) (time : Int) : Option Int :=
  calibration.foldl (ck_step time) none

/-- Type of the camera configuration: per camera, per method, a list of
(timestamp, calibration value) entries. -/
abbrev CamConfig := List (String × List (String × List (Int × ℚ)))

/-- Embedding of detection.get_calibration.  Returns the calibration value
together with a flag recording whether warnings.warn was called.  A
missing camera or method key raises KeyError, caught by the outer except
(warn, return 1.0); when no timestamp qualifies, chosen_key stays None
and calibration[None] raises, caught by the inner bare except
(warn, return 1.0). -/
def get_calibration (config : CamConfig) (cam_name meth_name : String)
    (time : Int) : ℚ × Bool :=
  match dict_get config cam_name with
  | none => (1, true)
  | some cam_cfg =>
    match dict_get cam_cfg meth_name with
    | none => (1, true)
    | some calibration =>
      match chosen_key calibration time with
      | none => (1, true)
      | some k =>
        match dict_get_int calibration k with
        | some v => (v, false)
        | none => (1, true)

/-! ### StarDetectionLLH.__init__ name resolution (detection.py lines 140-149)

The body of StarDetectionLLH.__init__ executes the assignments
self.sigma = sigma; self.size = (fit_size, fit_size);
self.fit_pos = fit_pos; self.fit_sigma = fit_sigma; ... in order.
Evaluating the bare names fit_pos and fit_sigma consults the local scope
(the parameters) and then the module's global scope; Python raises
NameError when neither contains the name. -/

/-- Names bound at module level in detection.py: the imported names and
the module's own top-level definitions. -/
def detection_module_names : List String :=
  ["np", "pd", "progressbar", "cKDTree", "minimize", "gaussian_laplace",
   "gaussian", "yaml", "resource_filename", "warnings", "Time",
   "get_slice", "mean_cov", "get_calibration",
   "StarDetectionBase", "StarDetectionLLH", "StarDetectionFilter"]

/-- Local names in scope inside StarDetectionLLH.__init__: its parameters. -/
def llh_init_locals : List String :=
  ["self", "camera", "sigma", "fit_size", "presmoothing",
   "remove_detected_stars", "verbose"]

/-- Python name resolution for a bare name inside __init__: local scope,
then module globals (no relevant builtin exists for the names involved). -/
def resolves (locals : List String) (n : String) : Bool :=
  locals.contains n || detection_module_names.contains n

/-- Outcome of running a Python constructor: a constructed object or an
uncaught NameError naming the unresolvable identifier. -/
inductive PyOutcome (α : Type) where
  | ok (a : α)
  | nameError (missing : String)
deriving DecidableEq

/-- Attribute state a successful StarDetectionLLH.__init__ would build. -/
structure LLHState where
  camera : String
  sigma : ℚ
  size : Int × Int
  fit_pos : ℚ
  fit_sigma : ℚ
  presmoothing : ℚ
  verbose : Bool
  remove_detected_stars : Bool

/-- Embedding of StarDetectionLLH.__init__.  The assignments up to
self.size succeed; the statement self.fit_pos = fit_pos evaluates the
bare name fit_pos, and self.fit_sigma = fit_sigma the bare name
fit_sigma, each raising NameError unless the name resolves.  The ok
branch is provably unreachable (the field values 0 for fit_pos and
fit_sigma are placeholders on that dead branch). -/
def StarDetectionLLH_init (camera : String) (sigma : ℚ) (fit_size : Int)
    (presmoothing : ℚ) (remove_detected_stars verbose : Bool) :
    PyOutcome LLHState :=
  if resolves llh_init_locals "fit_pos" then
    if resolves llh_init_locals "fit_sigma" then
      .ok { camera := camera, sigma := sigma, size := (fit_size, fit_size),
            fit_pos := 0, fit_sigma := 0, presmoothing := presmoothing,
            verbose := verbose, remove_detected_stars := remove_detected_stars }
    else .nameError "fit_sigma"
  else .nameError "fit_pos"

/-! ### Images and the likelihood detector (StarDetectionLLH.detect)

A 2-D numpy float array is modelled as a list of rows of rationals.
skimage.filters.gaussian and scipy.optimize.minimize cannot be embedded
exactly; they enter the embedding as function parameters:
  * gaussian : the presmoothing pass; it always allocates and returns a
    fresh output array (modelled explicitly in the heap version below);
  * opt : the result vector r.x of scipy.optimize.minimize for one star.
    Given the fixed detector parameters and star table, the objective
    fit_function and the initial guess x0 built in the source are
    determined by the current working image and the star index, and
    minimize is deterministic in them, so r.x is a function of exactly
    these two arguments. -/

/-- A 2-D image: a list of pixel rows. -/
abbrev Img := List (List ℚ)

/-- Embedding of numpy's shape for a 2-D array (rows, columns). -/
def Img.shape (img : Img) : Int × Int :=
  ((img.length : Int), ((img.headD []).length : Int))

/-- List.map with the element index passed to the function, used to write
the in-place patch update img[sel] -= ... functionally. -/
def mapWithIdx {α β : Type} (f : ℕ → α → β) : ℕ → List α → List β
  | _, [] => []
  | i, a :: as => f i a :: mapWithIdx f (i + 1) as

/-- Embedding of StarDetectionLLH.blob_func.  expQ abstracts np.exp. -/
def blob_func (expQ : ℚ → ℚ) (x y x0 y0 mag sigma bkg : ℚ) : ℚ :=
  |mag| * expQ (-((x - x0) ^ 2 + (y - y0) ^ 2) / (2 * sigma ^ 2)) + |bkg|

/-- Embedding of the in-place update
img[sel] -= blob_func(mx[sel], my[sel], x0, y0, mag, sigma, 0.0): the
meshgrids satisfy mx[i, j] = j and my[i, j] = i, so each pixel (i, j)
inside the slice pair loses blob_func j i x0 y0 mag sigma 0. -/
def Img.sub_blob (expQ : ℚ → ℚ) (img : Img) (sel : PySlice × PySlice)
    (x0 y0 mag sigma : ℚ) : Img :=
  mapWithIdx (fun i row =>
    if sel.1.coversN i then
      mapWithIdx (fun j v =>
        if sel.2.coversN j then
          v - blob_func expQ (j : ℚ) (i : ℚ) x0 y0 mag sigma 0
        else v) 0 row
    else row) 0 img

/-- One catalog star row as the detector reads it: integer id, catalog
magnitude and predicted pixel position (image.stars columns id, mag, x, y). -/
structure Star where
  id : Int
  mag : ℚ
  x : ℚ
  y : ℚ
deriving DecidableEq, Inhabited

/-- One row of the likelihood detector's result table.  The default value
(all fields 0) matches the np.zeros initialisation of the result arrays. -/
structure Row where
  id : ℚ
  M_fit : ℚ
  b_fit : ℚ
  x_fit : ℚ
  y_fit : ℚ
  visibility : ℚ
deriving DecidableEq, Inhabited

/-- The four entries of the optimizer result vector r.x. -/
structure RX where
  x0 : ℚ
  x1 : ℚ
  x2 : ℚ
  x3 : ℚ
deriving DecidableEq, Inhabited

/-- Context of one StarDetectionLLH.detect call: detector parameters
(self.sigma, self.size, self.presmoothing, self.remove_detected_stars),
the abstracted skimage gaussian and numpy exp, the abstracted optimizer,
the calibration scalar fetched by the base class, and the star table. -/
structure LLHCtx where
  sigma : ℚ
  size : Int × Int
  presmoothing : ℚ
  remove_detected_stars : Bool
  gaussian : Img → ℚ → Img
  expQ : ℚ → ℚ
  opt : Img → ℕ → RX
  calibration : ℚ
  stars : List Star

/-- Star at a given index of the star table (pos[idx] etc. in the source). -/
def LLHCtx.star (C : LLHCtx) (idx : ℕ) : Star := C.stars.getD idx default

/-- Slice pair for one star: the source calls
get_slice((pos[idx, 1], pos[idx, 0]), self.size, img.shape), i.e. the
position tuple is (y, x). -/
def LLHCtx.sel (C : LLHCtx) (img : Img) (idx : ℕ) : PySlice × PySlice :=
  get_slice ((C.star idx).y, (C.star idx).x) C.size img.shape

/-- Result-table row written for star idx: M_fit = |r.x[0]|,
b_fit = |r.x[1]|, y_fit = r.x[2], x_fit = r.x[3], and
visibility = |r.x[0]| / exp(-mag) scaled by the calibration. -/
def LLHCtx.row (C : LLHCtx) (img : Img) (idx : ℕ) : Row :=
  let r := C.opt img idx
  let star := C.star idx
  { id := (star.id : ℚ)
    M_fit := |r.x0|
    b_fit := |r.x1|
    x_fit := r.x3
    y_fit := r.x2
    visibility := |r.x0| / C.expQ (-star.mag) * C.calibration }

/-- One iteration of the per-star loop of StarDetectionLLH.detect on the
state (working image, result rows): fit the star, subtract the fitted
blob from the working image when remove_detected_stars is set, and write
the star's row at its original index idx. -/
def LLHCtx.step (C : LLHCtx) (st : Img × List Row) (idx : ℕ) : Img × List Row :=
  let img := st.1
  let r := C.opt img idx
  let img2 :=
    if C.remove_detected_stars then
      img.sub_blob C.expQ (C.sel img idx) r.x2 r.x3 r.x0 C.sigma
    else img
  (img2, st.2.set idx (C.row img idx))

/-- Embedding of StarDetectionLLH.detect.  The working image is the
presmoothed copy gaussian(image.image, self.presmoothing); the result
arrays start as np.zeros(n_stars); the loop visits the star indices in
the order given by order, which in the source is
np.argsort(image.stars.mag.values) — always some permutation of
range(n_stars).  Returns the final working image and the result rows. -/
def StarDetectionLLH_detect (C : LLHCtx) (image : Img) (order : List ℕ) :
    Img × List Row :=
  let img := C.gaussian image C.presmoothing
  let init : List Row := List.replicate C.stars.length default
  order.foldl C.step (img, init)

/-- Embedding of numpy's astype(int) on a scalar holding an integral
value: truncation toward zero. -/
def cast_int (q : ℚ) : Int := q.num.tdiv (q.den : Int)

/-- Index of the returned DataFrame: results['id'].astype(int). -/
def detect_index (rows : List Row) : List Int :=
  rows.map (fun r => cast_int r.id)

/-! ### Heap-level view of StarDetectionLLH.detect

To state that detect never writes to the original image array, arrays are
placed in an explicit heap (a list of images addressed by position).  The
call img = gaussian(image.image, self.presmoothing) allocates a fresh
output array at a fresh address, and every in-place update
img[sel] -= ... stores to that address only. -/

/-- One loop iteration at the heap level: read the working array at
address w, run the per-star step on it, store the updated working array
back at address w (the in-place img[sel] -= ... write). -/
def LLHCtx.heapStep (C : LLHCtx) (w : ℕ) (st : List Img × List Row)
    (idx : ℕ) : List Img × List Row :=
  let next := C.step (st.1.getD w [], st.2) idx
  (st.1.set w next.1, next.2)

/-- Heap-level embedding of StarDetectionLLH.detect: the original image
lives at imgAddr; gaussian allocates the working copy at the fresh
address heap.length; each loop iteration reads and writes only that
working address. -/
def StarDetectionLLH_detect_heap (C : LLHCtx) (heap : List Img)
    (imgAddr : ℕ) (order : List ℕ) : List Img × List Row :=
  let image := heap.getD imgAddr []
  let work := C.gaussian image C.presmoothing
  let workAddr := heap.length
  let heap2 := heap ++ [work]
  let init : List Row := List.replicate C.stars.length default
  order.foldl (C.heapStep workAddr) (heap2, init)

/-! ### Filter detector (StarDetectionFilter.detect)

scipy.ndimage.gaussian_laplace enters as a function parameter (log);
np.percentile with the default linear interpolation is embedded exactly
over the rationals. -/

/-- Insertion of an element into an ascending-sorted list of rationals. -/
def insertSorted (a : ℚ) : List ℚ → List ℚ
  | [] => [a]
  | b :: bs => if a ≤ b then a :: b :: bs else b :: insertSorted a bs

/-- Ascending sort of a list of rationals (models np.sort). -/
def sortAsc (xs : List ℚ) : List ℚ := xs.foldr insertSorted []

/-- Embedding of np.percentile(xs, q) with the default linear
interpolation: the virtual rank is q / 100 * (n - 1); the result
interpolates between the neighbouring order statistics. -/
def percentile (xs : List ℚ) (q : ℚ) : ℚ :=
  let sorted := sortAsc xs
  let n := sorted.length
  let pos : ℚ := q / 100 * ((n : ℚ) - 1)
  let i : ℕ := ⌊pos⌋.toNat
  let lo := sorted.getD i 0
  let hi := sorted.getD (min (i + 1) (n - 1)) 0
  lo + (pos - ((⌊pos⌋ : Int) : ℚ)) * (hi - lo)

/-- Indices of a slice inside an axis of the given length (Python slicing
keeps the indices between the slice bounds that exist in the array). -/
def sliceNats (s : PySlice) (len : ℕ) : List ℕ :=
  (List.range len).filter (fun i => decide (s.coversN i))

/-- Values of the rectangular patch img[sel], row-major. -/
def Img.patch (img : Img) (sel : PySlice × PySlice) : List ℚ :=
  (sliceNats sel.1 img.length).flatMap (fun i =>
    (sliceNats sel.2 (img.getD i []).length).map (fun j =>
      (img.getD i []).getD j 0))

/-- One row of the filter detector's result table. -/
structure FRow where
  id : ℚ
  M_fit : ℚ
  visibility : ℚ
deriving DecidableEq, Inhabited

/-- Context of one StarDetectionFilter.detect call: detector parameters
(self.sigma, self.size, self.quantile), the abstracted
scipy.ndimage.gaussian_laplace and numpy exp, the calibration scalar and
the star table. -/
structure FilterCtx where
  sigma : ℚ
  size : Int × Int
  quantile : ℚ
  log : Img → ℚ → Img
  expQ : ℚ → ℚ
  calibration : ℚ
  stars : List Star

/-- Result-table row for star idx of the filter detector: M is the
configured percentile of the filtered patch (note: no absolute value in
the source), visibility = M / exp(-mag) scaled by the calibration. -/
def FilterCtx.frow (C : FilterCtx) (img : Img) (idx : ℕ) : FRow :=
  let star := C.stars.getD idx default
  let sel := get_slice (star.y, star.x) C.size img.shape
  let M := percentile (img.patch sel) C.quantile
  { id := (star.id : ℚ)
    M_fit := M
    visibility := M / C.expQ (-star.mag) * C.calibration }

/-- Embedding of StarDetectionFilter.detect: filter the whole image once
with gaussian_laplace, then fill the result row of each star index in
catalog order (the loop runs over range(n_stars) and writes slot idx). -/
def StarDetectionFilter_detect (C : FilterCtx) (image : Img) : List FRow :=
  let img := C.log image C.sigma
  (List.range C.stars.length).map (C.frow img)

/-- Index of the filter detector's DataFrame: results['id'].astype(int). -/
def filter_index (rows : List FRow) : List Int :=
  rows.map (fun r => cast_int r.id)

/-! ### Camera parameter fitter (utilities/calibration.fit_camera_params)

The function first validates stepsize and init_sigma and only then loads
the catalog, camera and image, transforms coordinates and runs the
minimization loop.  The embedding records the work performed after
validation as a trace of actions, so that fail-fast (no work before a
validation error) is expressible; the numerical content of the work is
not needed by any claim. -/

/-- The units of work fit_camera_params performs after validation, in
source order. -/
inductive FitAction where
  | read_catalog
  | read_camera
  | read_image
  | transform_coordinates
  | minimize_loop
deriving DecidableEq

/-- Embedding of the validation and work schedule of fit_camera_params:
the pair (actions performed, validation error message if any).  A
validation failure raises ValueError before any action runs. -/
def fit_camera_params (init_sigma stepsize : ℚ) :
    List FitAction × Option String :=
  if stepsize ≤ 1 then ([], some "Stepsize needs to be > 1.0.")
  else if init_sigma < 1/10 then ([], some "init_sigma needs to be > 0.1.")
  else ([.read_catalog, .read_camera, .read_image, .transform_coordinates,
         .minimize_loop], none)

/-- Embedding of the successive-refinement while loop of
fit_camera_params, indexed by fuel: each pass checks s ≤ 1e-1 and breaks,
otherwise refits and divides s by stepsize.  Returns the number of
minimize calls performed when the loop exits within the given fuel, and
none when the fuel runs out first.  The loop terminates exactly when some
fuel suffices. -/
def refine_loop (s stepsize : ℚ) : ℕ → Option ℕ
  | 0 => none
  | fuel + 1 =>
    if s ≤ 1/10 then some 0
    else (refine_loop (s / stepsize) stepsize fuel).map (· + 1)

/-! ## Theorems -/

/-! ### Facts about clip -/

theorem clip_le_right (x lo hi : Int) : clip x lo hi ≤ hi := min_le_right _ _

theorem left_le_clip (x lo hi : Int) (h : lo ≤ hi) : lo ≤ clip x lo hi :=
  le_min (le_max_right _ _) h

theorem clip_mono_left (x y lo hi : Int) (h : x ≤ y) :
    clip x lo hi ≤ clip y lo hi :=
  min_le_min (max_le_max h le_rfl) le_rfl

theorem clip_eq_self (x lo hi : Int) (h1 : lo ≤ x) (h2 : x ≤ hi) :
    clip x lo hi = x := by
  unfold clip
  rw [max_eq_left h1, min_eq_left h2]

/-! ### Claim C2: the region extractor -/

/-- Property pack for the amended claim C2 about get_slice: both returned
slices have 0 ≤ start ≤ stop ≤ dim - 1 (the slice stop is an exclusive
bound, clipped to dim - 1 rather than dim); consequently every covered
index lies in [0, dim - 2] and the last index dim - 1 is never covered;
when no boundary clipping occurs the covered indices are exactly the
inclusive window [c - d, c + d] around the rounded centre c, which is
symmetric around c. -/
def GetSliceProp (pos : ℚ × ℚ) (size shape : Int × Int) : Prop :=
  (0 ≤ (get_slice pos size shape).1.start ∧
    (get_slice pos size shape).1.start ≤ (get_slice pos size shape).1.stop ∧
    (get_slice pos size shape).1.stop ≤ shape.1 - 1) ∧
  (0 ≤ (get_slice pos size shape).2.start ∧
    (get_slice pos size shape).2.start ≤ (get_slice pos size shape).2.stop ∧
    (get_slice pos size shape).2.stop ≤ shape.2 - 1) ∧
  (∀ i : Int, (get_slice pos size shape).1.covers i → 0 ≤ i ∧ i ≤ shape.1 - 2) ∧
  (∀ i : Int, (get_slice pos size shape).2.covers i → 0 ≤ i ∧ i ≤ shape.2 - 2) ∧
  (0 ≤ np_round pos.2 - size.2 → np_round pos.2 + size.2 + 1 ≤ shape.1 - 1 →
    ∀ i : Int, ((get_slice pos size shape).1.covers i ↔
      np_round pos.2 - size.2 ≤ i ∧ i ≤ np_round pos.2 + size.2)) ∧
  (0 ≤ np_round pos.1 - size.1 → np_round pos.1 + size.1 + 1 ≤ shape.2 - 1 →
    ∀ i : Int, ((get_slice pos size shape).2.covers i ↔
      np_round pos.1 - size.1 ≤ i ∧ i ≤ np_round pos.1 + size.1)) ∧
  (0 ≤ np_round pos.2 - size.2 → np_round pos.2 + size.2 + 1 ≤ shape.1 - 1 →
    ∀ k : Int, ((get_slice pos size shape).1.covers (np_round pos.2 + k) ↔
      (get_slice pos size shape).1.covers (np_round pos.2 - k)))

/-- Claim C2 (amended).  For every centre, every half-window size
(dy, dx) ≥ 0 and every array shape with positive dimensions, the two
ranges returned by get_slice are half-open slices [start, stop) whose
bounds are independently clamped, with 0 ≤ start ≤ stop ≤ dim - 1; since
the exclusive stop is clipped to dim - 1 (not dim), every covered index
is at most dim - 2 and the last index dim - 1 is never included (contrary
to the original claim); away from the boundaries the covered indices are
exactly the inclusive window around the rounded centre, symmetric
around it. -/
theorem get_slice_clipped_bounds (pos : ℚ × ℚ) (size shape : Int × Int)
    (hdy : 0 ≤ size.1) (hdx : 0 ≤ size.2)
    (h1 : 1 ≤ shape.1) (h2 : 1 ≤ shape.2) :
    GetSliceProp pos size shape := by
  unfold GetSliceProp
  simp only [get_slice, PySlice.covers]
  refine ⟨⟨?_, ?_, ?_⟩, ⟨?_, ?_, ?_⟩, ?_, ?_, ?_, ?_, ?_⟩
  · exact left_le_clip _ _ _ (by omega)
  · exact clip_mono_left _ _ _ _ (by omega)
  · exact clip_le_right _ _ _
  · exact left_le_clip _ _ _ (by omega)
  · exact clip_mono_left _ _ _ _ (by omega)
  · exact clip_le_right _ _ _
  · intro i hi
    have ha := left_le_clip (np_round pos.2 - size.2) 0 (shape.1 - 1) (by omega)
    have hb := clip_le_right (np_round pos.2 + size.2 + 1) 0 (shape.1 - 1)
    omega
  · intro i hi
    have ha := left_le_clip (np_round pos.1 - size.1) 0 (shape.2 - 1) (by omega)
    have hb := clip_le_right (np_round pos.1 + size.1 + 1) 0 (shape.2 - 1)
    omega
  · intro hA hB i
    rw [clip_eq_self _ _ _ hA (by omega), clip_eq_self _ _ _ (by omega) hB]
    omega
  · intro hA hB i
    rw [clip_eq_self _ _ _ hA (by omega), clip_eq_self _ _ _ (by omega) hB]
    omega
  · intro hA hB k
    rw [clip_eq_self _ _ _ hA (by omega), clip_eq_self _ _ _ (by omega) hB]
    omega

/-- Witness for claim C2's theorem at a concrete interior input. -/
theorem get_slice_clipped_bounds_witness :
    (0 ≤ (1 : Int) ∧ 0 ≤ (1 : Int) ∧ 1 ≤ (9 : Int) ∧ 1 ≤ (9 : Int)) ∧
    GetSliceProp ((2 : ℚ), (3 : ℚ)) (1, 1) (9, 9) :=
  ⟨by decide,
   get_slice_clipped_bounds ((2 : ℚ), (3 : ℚ)) (1, 1) (9, 9)
     (by decide) (by decide) (by decide) (by decide)⟩

/-- Counterexample for claim C2 as stated: at centre (4, 4) with
half-window 1 in a 5 × 5 image, the claimed clamped inclusive range ends
at index 4 = dim - 1, but the returned slice is [3, 4) and does not cover
index 4: the last index is excluded when the window reaches the upper
boundary. -/
theorem get_slice_top_edge_counterexample :
    (spec_range 4 1 5).2 = 4 ∧
    ¬ (get_slice ((4 : ℚ), (4 : ℚ)) (1, 1) (5, 5)).1.covers 4 := by
  have h4 : np_round (4 : ℚ) = 4 := by
    unfold np_round
    norm_num
  have hs : get_slice ((4 : ℚ), (4 : ℚ)) (1, 1) (5, 5) = (⟨3, 4⟩, ⟨3, 4⟩) := by
    simp only [get_slice, h4]
    decide
  rw [hs]
  exact ⟨by decide, by decide⟩

/-! ### Claim C3: StarDetectionLLH.__init__ raises NameError -/

/-- Claim C3.  For every argument combination, StarDetectionLLH.__init__
raises NameError on the unresolvable name fit_pos; in particular no
successfully constructed instance exists, so StarDetectionLLH.detect is
unreachable through construction. -/
theorem llh_init_name_error (camera : String) (sigma : ℚ) (fit_size : Int)
    (presmoothing : ℚ) (remove_detected_stars verbose : Bool) :
    StarDetectionLLH_init camera sigma fit_size presmoothing
        remove_detected_stars verbose = .nameError "fit_pos" ∧
    ∀ s : LLHState, StarDetectionLLH_init camera sigma fit_size presmoothing
        remove_detected_stars verbose ≠ .ok s := by
  have h : resolves llh_init_locals "fit_pos" = false := by decide
  constructor
  · unfold StarDetectionLLH_init
    rw [h]
    simp
  · intro s hok
    unfold StarDetectionLLH_init at hok
    rw [h] at hok
    simp at hok

/-! ### Claim C8: fit_camera_params validation -/

/-- Claim C8.  fit_camera_params raises ValueError exactly when
stepsize ≤ 1.0 or init_sigma < 0.1; in the error case no work action has
been performed (fail fast), and otherwise the full work schedule runs
with no validation error. -/
theorem fit_camera_params_validation_iff (init_sigma stepsize : ℚ) :
    ((fit_camera_params init_sigma stepsize).2.isSome ↔
      (stepsize ≤ 1 ∨ init_sigma < 1/10)) ∧
    ((stepsize ≤ 1 ∨ init_sigma < 1/10) →
      (fit_camera_params init_sigma stepsize).1 = []) ∧
    (1 < stepsize → 1/10 ≤ init_sigma →
      fit_camera_params init_sigma stepsize =
        ([.read_catalog, .read_camera, .read_image, .transform_coordinates,
          .minimize_loop], none)) := by
  unfold fit_camera_params
  split_ifs with hs hi
  · exact ⟨iff_of_true (by simp) (Or.inl hs), fun _ => rfl,
      fun h _ => absurd hs (by linarith)⟩
  · exact ⟨iff_of_true (by simp) (Or.inr hi), fun _ => rfl,
      fun _ h => absurd hi (by linarith)⟩
  · refine ⟨iff_of_false (by simp) ?_, ?_, fun _ _ => rfl⟩
    · rintro (h | h)
      · exact hs h
      · exact hi h
    · rintro (h | h)
      · exact absurd h hs
      · exact absurd h hi

/-- Witness for claim C8's theorem: at stepsize = 2, init_sigma = 10 the
validation passes and the work schedule runs. -/
theorem fit_camera_params_validation_witness :
    (1 < (2 : ℚ) ∧ 1/10 ≤ (10 : ℚ)) ∧
    fit_camera_params 10 2 =
      ([.read_catalog, .read_camera, .read_image, .transform_coordinates,
        .minimize_loop], none) :=
  ⟨⟨by norm_num, by norm_num⟩,
   (fit_camera_params_validation_iff 10 2).2.2 (by norm_num) (by norm_num)⟩

/-! ### Claims C1 and C7: the calibration lookup -/

/-- Evaluation of get_calibration on a configuration holding exactly the
queried camera and method. -/
theorem get_calibration_cons (cam meth : String) (es : List (Int × ℚ))
    (time : Int) :
    get_calibration [(cam, [(meth, es)])] cam meth time =
      match chosen_key es time with
      | none => (1, true)
      | some k =>
        match dict_get_int es k with
        | some v => (v, false)
        | none => (1, true) := by
  unfold get_calibration
  simp [dict_get]

/-- When no entry's timestamp strictly precedes the observation time the
chosen_key loop never leaves None. -/
theorem chosen_key_eq_none (es : List (Int × ℚ)) (time : Int)
    (h : ∀ p ∈ es, ¬ time > p.1) : chosen_key es time = none := by
  unfold chosen_key
  induction es with
  | nil => rfl
  | cons a l ih =>
    rw [List.foldl_cons]
    have ha : ck_step time none a = none := by
      unfold ck_step
      rw [if_neg (h a (by simp))]
    rw [ha]
    exact ih (fun p hp => h p (by simp [hp]))

/-- Claim C1 (amended).  For calibration entries at timestamps
t1 < t2 < t3, querying at an observation time strictly between t2 and t3
returns the value stored for t2 (the maximum timestamp strictly less
than the observation time), without a warning; but querying exactly at
t2 returns the value stored for t1, because the source selects with the
strict comparison time > t and so never picks a timestamp equal to the
observation time. -/
theorem get_calibration_between (cam meth : String) (t1 t2 t3 time : Int)
    (v1 v2 v3 : ℚ) (h12 : t1 < t2) (h23 : t2 < t3) :
    (t2 < time → time < t3 →
      get_calibration [(cam, [(meth, [(t1, v1), (t2, v2), (t3, v3)])])]
        cam meth time = (v2, false)) ∧
    get_calibration [(cam, [(meth, [(t1, v1), (t2, v2), (t3, v3)])])]
      cam meth t2 = (v1, false) := by
  constructor
  · intro h2t ht3
    rw [get_calibration_cons]
    have hck : chosen_key [(t1, v1), (t2, v2), (t3, v3)] time = some t2 := by
      unfold chosen_key
      rw [List.foldl_cons, List.foldl_cons, List.foldl_cons, List.foldl_nil]
      have s1 : ck_step time none (t1, v1) = some t1 := by
        unfold ck_step
        rw [if_pos (by omega)]
      have s2 : ck_step time (some t1) (t2, v2) = some t2 := by
        unfold ck_step
        rw [if_pos (by omega)]
        show (if time - t2 < time - t1 then some t2 else some t1) = some t2
        rw [if_pos (by omega)]
      have s3 : ck_step time (some t2) (t3, v3) = some t2 := by
        unfold ck_step
        rw [if_neg (by omega)]
      rw [s1, s2, s3]
    have hv : dict_get_int [(t1, v1), (t2, v2), (t3, v3)] t2 = some v2 := by
      have hne : (t1 == t2) = false := beq_eq_false_iff_ne.mpr (by omega)
      simp [dict_get_int, List.find?, hne]
    simp only [hck, hv]
  · rw [get_calibration_cons]
    have hck : chosen_key [(t1, v1), (t2, v2), (t3, v3)] t2 = some t1 := by
      unfold chosen_key
      rw [List.foldl_cons, List.foldl_cons, List.foldl_cons, List.foldl_nil]
      have s1 : ck_step t2 none (t1, v1) = some t1 := by
        unfold ck_step
        rw [if_pos (by omega)]
      have s2 : ck_step t2 (some t1) (t2, v2) = some t1 := by
        unfold ck_step
        rw [if_neg (by omega)]
      have s3 : ck_step t2 (some t1) (t3, v3) = some t1 := by
        unfold ck_step
        rw [if_neg (by omega)]
      rw [s1, s2, s3]
    have hv : dict_get_int [(t1, v1), (t2, v2), (t3, v3)] t1 = some v1 := by
      simp [dict_get_int, List.find?]
    simp only [hck, hv]

/-- Witness for claim C1's theorem at entries 0 < 10 < 20 with values
5, 7, 9: querying at 15 yields the value 7 stored for 10, and querying
exactly at 10 yields the value 5 stored for 0. -/
theorem get_calibration_between_witness :
    ((0 : Int) < 10 ∧ (10 : Int) < 20 ∧ (10 : Int) < 15 ∧ (15 : Int) < 20) ∧
    get_calibration [("cta", [("m", [(0, 5), (10, 7), (20, 9)])])]
      "cta" "m" 15 = (7, false) ∧
    get_calibration [("cta", [("m", [(0, 5), (10, 7), (20, 9)])])]
      "cta" "m" 10 = (5, false) :=
  ⟨by decide,
   (get_calibration_between "cta" "m" 0 10 20 15 5 7 9
      (by decide) (by decide)).1 (by decide) (by decide),
   (get_calibration_between "cta" "m" 0 10 20 10 5 7 9
      (by decide) (by decide)).2⟩

/-- Counterexample for claim C1 as stated: with entries at timestamps
0 < 10 < 20 holding values 5, 7, 9, querying exactly at the middle
timestamp 10 does not return the value 7 stored for 10 (it returns 5,
the value stored for 0, because the selection is strict). -/
theorem get_calibration_exact_counterexample :
    (get_calibration [("cta", [("m", [(0, 5), (10, 7), (20, 9)])])]
      "cta" "m" 10).1 ≠ 7 := by
  rw [get_calibration_cons]
  have hck : chosen_key [((0 : Int), (5 : ℚ)), (10, 7), (20, 9)] 10 = some 0 := by
    unfold chosen_key
    rw [List.foldl_cons, List.foldl_cons, List.foldl_cons, List.foldl_nil]
    have s1 : ck_step 10 none ((0 : Int), (5 : ℚ)) = some 0 := by
      unfold ck_step
      rw [if_pos (by decide)]
    have s2 : ck_step 10 (some 0) ((10 : Int), (7 : ℚ)) = some 0 := by
      unfold ck_step
      rw [if_neg (by decide)]
    have s3 : ck_step 10 (some 0) ((20 : Int), (9 : ℚ)) = some 0 := by
      unfold ck_step
      rw [if_neg (by decide)]
    rw [s1, s2, s3]
  have hv : dict_get_int [((0 : Int), (5 : ℚ)), (10, 7), (20, 9)] 0 = some 5 := by
    simp [dict_get_int, List.find?]
  simp only [hck, hv]
  norm_num

/-- Claim C7.  Whenever the camera key is absent, or the method key is
absent, or no calibration timestamp strictly precedes or equals the
observation time, get_calibration warns and returns exactly 1.0. -/
theorem get_calibration_missing_returns_one (config : CamConfig)
    (cam meth : String) (time : Int) :
    (dict_get config cam = none →
      get_calibration config cam meth time = (1, true)) ∧
    (∀ cc, dict_get config cam = some cc → dict_get cc meth = none →
      get_calibration config cam meth time = (1, true)) ∧
    (∀ cc es, dict_get config cam = some cc → dict_get cc meth = some es →
      (∀ p ∈ es, ¬ p.1 ≤ time) →
      get_calibration config cam meth time = (1, true)) := by
  refine ⟨?_, ?_, ?_⟩
  · intro h
    simp only [get_calibration, h]
  · intro cc h1 h2
    simp only [get_calibration, h1, h2]
  · intro cc es h1 h2 h3
    have hnone : chosen_key es time = none :=
      chosen_key_eq_none es time (fun p hp => by
        have := h3 p hp
        omega)
    simp only [get_calibration, h1, h2, hnone]

/-- Witness for claim C7's theorem: a configuration whose only entry has
timestamp 100, queried at time 50 — no timestamp qualifies, so the
result is 1.0 with a warning. -/
theorem get_calibration_missing_witness :
    (∀ p ∈ [((100 : Int), (2 : ℚ))], ¬ p.1 ≤ (50 : Int)) ∧
    get_calibration [("cta", [("llh_star_detection", [(100, 2)])])]
      "cta" "llh_star_detection" 50 = (1, true) :=
  ⟨by decide,
   (get_calibration_missing_returns_one
      [("cta", [("llh_star_detection", [(100, 2)])])]
      "cta" "llh_star_detection" 50).2.2
     [("llh_star_detection", [(100, 2)])] [(100, 2)]
     (by simp [dict_get]) (by simp [dict_get]) (by decide)⟩

/-! ### Claim C9: termination of the refinement loop -/

/-- When s already satisfies s / stepsize ^ n ≤ 1/10, fuel n + 1 makes
the refinement loop exit. -/
theorem refine_loop_exits (stepsize : ℚ) (hstep : 1 < stepsize) :
    ∀ (n : ℕ) (s : ℚ), s / stepsize ^ n ≤ 1/10 →
      ∃ k, refine_loop s stepsize (n + 1) = some k := by
  intro n
  induction n with
  | zero =>
    intro s h
    refine ⟨0, ?_⟩
    unfold refine_loop
    rw [if_pos (by simpa using h)]
  | succ n ih =>
    intro s h
    by_cases hs : s ≤ 1/10
    · exact ⟨0, by unfold refine_loop; rw [if_pos hs]⟩
    · have hrec : s / stepsize / stepsize ^ n ≤ 1/10 := by
        rw [div_div, ← pow_succ']
        exact h
      obtain ⟨k, hk⟩ := ih (s / stepsize) hrec
      refine ⟨k + 1, ?_⟩
      show refine_loop s stepsize (n + 1 + 1) = some (k + 1)
      unfold refine_loop
      rw [if_neg hs, hk]
      rfl

/-- Claim C9.  For every init_sigma ≥ 0.1 and every stepsize > 1.0, the
successive-refinement loop of fit_camera_params terminates: some finite
fuel makes it exit, having divided sigma by stepsize finitely many
times. -/
theorem fit_refine_loop_terminates (init_sigma stepsize : ℚ)
    (hsig : 1/10 ≤ init_sigma) (hstep : 1 < stepsize) :
    ∃ fuel k, refine_loop init_sigma stepsize fuel = some k := by
  obtain ⟨n, hn⟩ := exists_nat_ge (10 * init_sigma / (stepsize - 1))
  have he : (0 : ℚ) < stepsize - 1 := by linarith
  have hpow : 10 * init_sigma ≤ stepsize ^ n := by
    have h1 : 1 + (n : ℚ) * (stepsize - 1) ≤ (1 + (stepsize - 1)) ^ n :=
      one_add_mul_le_pow (by linarith) n
    have h2 : 10 * init_sigma ≤ (n : ℚ) * (stepsize - 1) :=
      (div_le_iff he).mp hn
    have h3 : (1 + (stepsize - 1)) ^ n = stepsize ^ n := by ring_nf
    nlinarith [h1, h2, h3]
  have hple : init_sigma / stepsize ^ n ≤ 1/10 := by
    have hpow0 : (0 : ℚ) < stepsize ^ n := pow_pos (by linarith) n
    rw [div_le_div_iff hpow0 (by norm_num)]
    linarith
  obtain ⟨k, hk⟩ := refine_loop_exits stepsize hstep n init_sigma hple
  exact ⟨n + 1, k, hk⟩

/-- Witness for claim C9's theorem at init_sigma = 10, stepsize = 2. -/
theorem fit_refine_loop_terminates_witness :
    ((1 : ℚ)/10 ≤ 10 ∧ (1 : ℚ) < 2) ∧
    ∃ fuel k, refine_loop 10 2 fuel = some k :=
  ⟨⟨by norm_num, by norm_num⟩,
   fit_refine_loop_terminates 10 2 (by norm_num) (by norm_num)⟩

/-! ### Facts about the per-star loop of StarDetectionLLH.detect -/

/-- The result rows written by one loop iteration: the row of star idx is
stored at index idx of the result table; the working image the row is
computed from is the pre-iteration one. -/
theorem step_rows (C : LLHCtx) (st : Img × List Row) (idx : ℕ) :
    (C.step st idx).2 = st.2.set idx (C.row st.1 idx) := rfl

/-- One loop iteration preserves the length of the result table. -/
theorem step_rows_length (C : LLHCtx) (st : Img × List Row) (idx : ℕ) :
    ((C.step st idx).2).length = st.2.length := by
  rw [step_rows, List.length_set]

/-- The whole loop preserves the length of the result table. -/
theorem foldl_step_length (C : LLHCtx) :
    ∀ (order : List ℕ) (st : Img × List Row),
      ((order.foldl C.step st).2).length = st.2.length := by
  intro order
  induction order with
  | nil => intro st; rfl
  | cons i rest ih =>
    intro st
    rw [List.foldl_cons, ih, step_rows_length]

/-- Loop iterations never write a result slot whose index they do not
process. -/
theorem foldl_step_not_mem (C : LLHCtx) :
    ∀ (order : List ℕ) (st : Img × List Row) (j : ℕ), j ∉ order →
      ((order.foldl C.step st).2).getD j default = st.2.getD j default := by
  intro order
  induction order with
  | nil => intro st j _; rfl
  | cons i rest ih =>
    intro st j hj
    rw [List.foldl_cons, ih _ j (fun hm => hj (List.mem_cons_of_mem i hm)),
      step_rows]
    exact getD_set_ne _ _ _ _ _ (fun he => hj (he ▸ List.mem_cons_self i rest))

/-- Every index processed by the loop ends up holding the row computed
for exactly that star index (from the working image current when the
index was processed). -/
theorem foldl_step_mem (C : LLHCtx) :
    ∀ (order : List ℕ), order.Nodup →
      ∀ (st : Img × List Row) (j : ℕ), j ∈ order → j < st.2.length →
        ∃ im, ((order.foldl C.step st).2).getD j default = C.row im j := by
  intro order
  induction order with
  | nil => intro _ st j hj; exact absurd hj (List.not_mem_nil j)
  | cons i rest ih =>
    intro hnd st j hj hlen
    rw [List.nodup_cons] at hnd
    rw [List.foldl_cons]
    rcases List.mem_cons.mp hj with hji | hjr
    · subst hji
      refine ⟨st.1, ?_⟩
      rw [foldl_step_not_mem C rest _ j hnd.1, step_rows]
      exact getD_set_self _ _ _ _ hlen
    · exact ih hnd.2 _ j hjr (by rw [step_rows_length]; exact hlen)

/-- Length of a fold that only writes slots of the accumulator list. -/
theorem foldl_set_length {α : Type} (g : ℕ → α) :
    ∀ (order : List ℕ) (rows : List α),
      (order.foldl (fun rs idx => rs.set idx (g idx)) rows).length =
        rows.length := by
  intro order
  induction order with
  | nil => intro rows; rfl
  | cons i rest ih =>
    intro rows
    rw [List.foldl_cons, ih, List.length_set]

/-- Contents of a fold that writes g idx to slot idx for each processed
index: processed in-range slots hold g, all other slots are unchanged
(duplicate-free processing order). -/
theorem foldl_set_getD {α : Type} (g : ℕ → α) (d : α) :
    ∀ (order : List ℕ), order.Nodup →
      ∀ (rows : List α) (j : ℕ),
        (order.foldl (fun rs idx => rs.set idx (g idx)) rows).getD j d =
          if j ∈ order ∧ j < rows.length then g j else rows.getD j d := by
  intro order
  induction order with
  | nil =>
    intro _ rows j
    simp
  | cons i rest ih =>
    intro hnd rows j
    rw [List.nodup_cons] at hnd
    rw [List.foldl_cons, ih hnd.2]
    by_cases hjr : j ∈ rest
    · by_cases hjl : j < rows.length
      · rw [if_pos ⟨hjr, by rw [List.length_set]; exact hjl⟩,
          if_pos ⟨List.mem_cons_of_mem i hjr, hjl⟩]
      · rw [if_neg (fun hc => hjl (by rw [← List.length_set rows i (g i)]; exact hc.2)),
          if_neg (fun hc => hjl hc.2)]
        rw [getD_set_ne _ _ _ _ _ (fun he => hnd.1 (by rw [he]; exact hjr))]
    · by_cases hji : j = i
      · subst hji
        rw [if_neg (fun hc => hjr hc.1)]
        by_cases hjl : j < rows.length
        · rw [if_pos ⟨List.mem_cons_self j rest, hjl⟩]
          exact getD_set_self _ _ _ _ hjl
        · rw [if_neg (fun hc => hjl hc.2)]
          rw [List.getD_eq_default _ _ (by rw [List.length_set]; omega),
            List.getD_eq_default _ _ (by omega)]
      · rw [if_neg (fun hc => hjr hc.1),
          if_neg (fun hc => (List.mem_cons.mp hc.1).elim (fun he => hji he) hjr)]
        exact getD_set_ne _ _ _ _ _ (fun he => hji he.symm)

/-! ### Claim C5: order invariance without star removal -/

/-- With remove_detected_stars disabled one loop iteration leaves the
working image unchanged and only writes its own result slot. -/
theorem step_remove_false (C : LLHCtx) (h : C.remove_detected_stars = false)
    (st : Img × List Row) (idx : ℕ) :
    C.step st idx = (st.1, st.2.set idx (C.row st.1 idx)) := by
  unfold LLHCtx.step
  rw [h]
  simp

/-- With remove_detected_stars disabled the whole loop keeps the
presmoothed image fixed and each slot receives the row computed from
that fixed image. -/
theorem foldl_step_remove_false (C : LLHCtx)
    (h : C.remove_detected_stars = false) :
    ∀ (order : List ℕ) (img : Img) (rows : List Row),
      order.foldl C.step (img, rows) =
        (img, order.foldl (fun rs idx => rs.set idx (C.row img idx)) rows) := by
  intro order
  induction order with
  | nil => intro img rows; rfl
  | cons i rest ih =>
    intro img rows
    rw [List.foldl_cons, step_remove_false C h, ih, List.foldl_cons]

/-- Claim C5.  When remove_detected_stars is disabled, the result table
of StarDetectionLLH.detect is the same for every permutation of the
per-star processing order: each star's fit reads only the shared
presmoothed image, which is never mutated, and writes only its own
result row. -/
theorem llh_detect_order_invariant (C : LLHCtx) (image : Img)
    (o1 o2 : List ℕ) (hrm : C.remove_detected_stars = false)
    (h1 : o1.Perm (List.range C.stars.length))
    (h2 : o2.Perm (List.range C.stars.length)) :
    (StarDetectionLLH_detect C image o1).2 =
      (StarDetectionLLH_detect C image o2).2 := by
  unfold StarDetectionLLH_detect
  rw [foldl_step_remove_false C hrm, foldl_step_remove_false C hrm]
  have hnd1 : o1.Nodup := (h1.nodup_iff).mpr (List.nodup_range _)
  have hnd2 : o2.Nodup := (h2.nodup_iff).mpr (List.nodup_range _)
  apply List.ext_getElem
  · rw [foldl_set_length, foldl_set_length]
  · intro n hn1 hn2
    have hlen : n < (List.replicate C.stars.length (default : Row)).length := by
      rw [foldl_set_length] at hn1
      exact hn1
    rw [← List.getD_eq_getElem _ default hn1, ← List.getD_eq_getElem _ default hn2,
      foldl_set_getD _ default o1 hnd1, foldl_set_getD _ default o2 hnd2]
    have hm1 : n ∈ o1 ↔ n < C.stars.length := by
      rw [h1.mem_iff, List.mem_range]
    have hm2 : n ∈ o2 ↔ n < C.stars.length := by
      rw [h2.mem_iff, List.mem_range]
    by_cases hb : n < C.stars.length
    · rw [if_pos ⟨hm1.mpr hb, hlen⟩, if_pos ⟨hm2.mpr hb, hlen⟩]
    · rw [if_neg (fun hc => hb (hm1.mp hc.1)), if_neg (fun hc => hb (hm2.mp hc.1))]

/-- Concrete detection context used to witness claim C5: two stars,
removal disabled, representative instantiations of the abstracted
numeric routines. -/
def C5ctx : LLHCtx :=
  { sigma := 1, size := (1, 1), presmoothing := 1,
    remove_detected_stars := false,
    gaussian := fun img _ => img, expQ := fun _ => 1,
    opt := fun _ _ => ⟨1, 1, 1, 1⟩, calibration := 1,
    stars := [{ id := 1, mag := 0, x := 0, y := 0 },
              { id := 2, mag := 1, x := 1, y := 1 }] }

/-- Witness for claim C5's theorem: the two processing orders of the two
stars give identical result tables. -/
theorem llh_detect_order_invariant_witness :
    (C5ctx.remove_detected_stars = false ∧
      [0, 1].Perm (List.range C5ctx.stars.length) ∧
      [1, 0].Perm (List.range C5ctx.stars.length)) ∧
    (StarDetectionLLH_detect C5ctx [[1]] [0, 1]).2 =
      (StarDetectionLLH_detect C5ctx [[1]] [1, 0]).2 :=
  ⟨⟨rfl, by decide, by decide⟩,
   llh_detect_order_invariant C5ctx [[1]] [0, 1] [1, 0] rfl
     (by decide) (by decide)⟩

/-! ### Claim C6: the original image is never written -/

/-- Loop iterations at the heap level never write a heap address other
than the working address. -/
theorem foldl_heapStep_getD (C : LLHCtx) (w j : ℕ) (hne : w ≠ j) :
    ∀ (order : List ℕ) (st : List Img × List Row),
      ((order.foldl (C.heapStep w) st).1).getD j [] = st.1.getD j [] := by
  intro order
  induction order with
  | nil => intro st; rfl
  | cons i rest ih =>
    intro st
    rw [List.foldl_cons, ih]
    exact getD_set_ne _ _ _ _ _ hne

/-- Claim C6.  StarDetectionLLH.detect never modifies the original image
array: the presmoothing pass allocates a fresh working copy at a fresh
heap address, and every in-place blob subtraction writes only to that
address, so the heap cell of the input image is unchanged by the call —
for any processing order and whether or not removal is enabled. -/
theorem llh_detect_preserves_original (C : LLHCtx) (heap : List Img)
    (imgAddr : ℕ) (order : List ℕ) (h : imgAddr < heap.length) :
    ((StarDetectionLLH_detect_heap C heap imgAddr order).1).getD imgAddr [] =
      heap.getD imgAddr [] := by
  unfold StarDetectionLLH_detect_heap
  rw [foldl_heapStep_getD C heap.length imgAddr (by omega)]
  exact getD_append_left heap _ imgAddr [] h

/-- Concrete detection context used to witness claim C6, with removal
enabled. -/
def C6ctx : LLHCtx :=
  { sigma := 1, size := (1, 1), presmoothing := 1,
    remove_detected_stars := true,
    gaussian := fun img _ => img, expQ := fun _ => 1,
    opt := fun _ _ => ⟨1, 1, 1, 1⟩, calibration := 1,
    stars := [{ id := 1, mag := 0, x := 0, y := 0 }] }

/-- Witness for claim C6's theorem: on a one-image heap the input image
cell is untouched by a detect call that runs its loop. -/
theorem llh_detect_preserves_original_witness :
    (0 < ([[[1]]] : List Img).length) ∧
    ((StarDetectionLLH_detect_heap C6ctx [[[1]]] 0 [0]).1).getD 0 [] =
      ([[[1]]] : List Img).getD 0 [] :=
  ⟨by decide,
   llh_detect_preserves_original C6ctx [[[1]]] 0 [0] (by decide)⟩

/-! ### Claim C4: signs of the result columns -/

/-- Every row the likelihood detector writes has non-negative M_fit and
b_fit (absolute values in the source), and non-negative visibility as
soon as the calibration scalar is non-negative (np.exp is positive). -/
theorem row_nonneg (C : LLHCtx) (hcal : 0 ≤ C.calibration)
    (hexp : ∀ q, 0 < C.expQ q) (img : Img) (idx : ℕ) :
    0 ≤ (C.row img idx).M_fit ∧ 0 ≤ (C.row img idx).b_fit ∧
      0 ≤ (C.row img idx).visibility := by
  unfold LLHCtx.row
  refine ⟨abs_nonneg _, abs_nonneg _, ?_⟩
  exact mul_nonneg (div_nonneg (abs_nonneg _) (le_of_lt (hexp _))) hcal

/-- Claim C4 (amended).  Every row of the table produced by
StarDetectionLLH.detect has non-negative fitted intensity M_fit and
non-negative fitted background b_fit, and — provided the calibration
scalar is non-negative — non-negative visibility.  (The original claim
extended the non-negativity of M_fit and visibility to the filter
detector, which is false; see the counterexample.) -/
theorem llh_rows_nonneg_amended (C : LLHCtx) (image : Img) (order : List ℕ)
    (hcal : 0 ≤ C.calibration) (hexp : ∀ q, 0 < C.expQ q) :
    ∀ r ∈ (StarDetectionLLH_detect C image order).2,
      0 ≤ r.M_fit ∧ 0 ≤ r.b_fit ∧ 0 ≤ r.visibility := by
  unfold StarDetectionLLH_detect
  have key : ∀ (o : List ℕ) (st : Img × List Row),
      (∀ r ∈ st.2, 0 ≤ r.M_fit ∧ 0 ≤ r.b_fit ∧ 0 ≤ r.visibility) →
      ∀ r ∈ (o.foldl C.step st).2,
        0 ≤ r.M_fit ∧ 0 ≤ r.b_fit ∧ 0 ≤ r.visibility := by
    intro o
    induction o with
    | nil => intro st h; exact h
    | cons i rest ih =>
      intro st h
      rw [List.foldl_cons]
      apply ih
      intro r hr
      rw [step_rows] at hr
      rcases List.mem_or_eq_of_mem_set hr with hr2 | hr2
      · exact h r hr2
      · rw [hr2]
        exact row_nonneg C hcal hexp st.1 i
  apply key
  intro r hr
  rw [List.eq_of_mem_replicate hr]
  refine ⟨le_refl 0, le_refl 0, le_refl 0⟩

/-- Concrete detection context used to witness claim C4's theorem. -/
def C4Lctx : LLHCtx :=
  { sigma := 1, size := (1, 1), presmoothing := 1,
    remove_detected_stars := false,
    gaussian := fun img _ => img, expQ := fun _ => 1,
    opt := fun _ _ => ⟨1, 1, 1, 1⟩, calibration := 1,
    stars := [{ id := 1, mag := 0, x := 0, y := 0 }] }

/-- Witness for claim C4's theorem: the single result row of a concrete
likelihood run has non-negative M_fit. -/
theorem llh_rows_nonneg_amended_witness :
    ((0 : ℚ) ≤ C4Lctx.calibration ∧ ∀ q, 0 < C4Lctx.expQ q) ∧
    0 ≤ ((StarDetectionLLH_detect C4Lctx [[1]] [0]).2.getD 0 default).M_fit := by
  have hlen : (StarDetectionLLH_detect C4Lctx [[1]] [0]).2.length = 1 := by
    unfold StarDetectionLLH_detect
    rw [foldl_step_length]
    rfl
  have hmem : (StarDetectionLLH_detect C4Lctx [[1]] [0]).2.getD 0 default ∈
      (StarDetectionLLH_detect C4Lctx [[1]] [0]).2 := by
    rw [List.getD_eq_getElem _ default (by omega)]
    exact List.getElem_mem _
  exact ⟨⟨by show (0 : ℚ) ≤ 1; norm_num, fun q => by show (0 : ℚ) < 1; norm_num⟩,
    (llh_rows_nonneg_amended C4Lctx [[1]] [0] (by show (0 : ℚ) ≤ 1; norm_num)
      (fun q => by show (0 : ℚ) < 1; norm_num) _ hmem).1⟩

/-- Concrete filter-detector context for the counterexample to claim C4:
the gaussian_laplace parameter is instantiated with a representative
output of the LoG filter — at the core of a bright blob wider than the
fit window the LoG response is strictly negative over the whole patch,
modelled here by an all-negative filtered image. -/
def C4Fctx : FilterCtx :=
  { sigma := 1, size := (1, 1), quantile := 100,
    log := fun _ _ => [[-1, -1], [-1, -1]],
    expQ := fun _ => 1, calibration := 1,
    stars := [{ id := 1, mag := 0, x := 0, y := 0 }] }

/-- Counterexample for claim C4 as stated: the filter detector's M_fit is
the raw percentile of the LoG-filtered patch (no absolute value is
taken), so on a patch of negative filter responses the fitted intensity
of the resulting row is negative, and so is the derived visibility. -/
theorem filter_negative_M_counterexample :
    ((StarDetectionFilter_detect C4Fctx [[9, 0], [0, 0]]).getD 0 default).M_fit < 0 ∧
    ((StarDetectionFilter_detect C4Fctx [[9, 0], [0, 0]]).getD 0 default).visibility < 0 := by
  have hnp : np_round (0 : ℚ) = 0 := by
    unfold np_round
    norm_num
  have hsel : get_slice ((0 : ℚ), (0 : ℚ)) (1, 1) ((2 : Int), (2 : Int)) =
      (⟨0, 1⟩, ⟨0, 1⟩) := by
    simp only [get_slice, hnp]
    decide
  have hdet : StarDetectionFilter_detect C4Fctx [[9, 0], [0, 0]] =
      [C4Fctx.frow [[-1, -1], [-1, -1]] 0] := rfl
  have hpatch : Img.patch [[-1, -1], [-1, -1]] (⟨0, 1⟩, ⟨0, 1⟩) = [-1] := rfl
  have hperc : percentile [-1] 100 = -1 := by
    have hsort : sortAsc [-1] = [-1] := rfl
    simp only [percentile, hsort, List.length_cons, List.length_nil]
    norm_num
  have hM : (C4Fctx.frow [[-1, -1], [-1, -1]] 0).M_fit = -1 := by
    have h0 : (C4Fctx.frow [[-1, -1], [-1, -1]] 0).M_fit =
        percentile (Img.patch [[-1, -1], [-1, -1]]
          (get_slice ((0 : ℚ), (0 : ℚ)) (1, 1) ((2 : Int), (2 : Int)))) 100 := rfl
    rw [h0, hsel, hpatch, hperc]
  have hV : (C4Fctx.frow [[-1, -1], [-1, -1]] 0).visibility =
      percentile (Img.patch [[-1, -1], [-1, -1]]
        (get_slice ((0 : ℚ), (0 : ℚ)) (1, 1) ((2 : Int), (2 : Int)))) 100 /
        C4Fctx.expQ (-(0 : ℚ)) * C4Fctx.calibration := rfl
  rw [hdet]
  constructor
  · show (C4Fctx.frow [[-1, -1], [-1, -1]] 0).M_fit < 0
    rw [hM]
    norm_num
  · show (C4Fctx.frow [[-1, -1], [-1, -1]] 0).visibility < 0
    rw [hV, hsel, hpatch, hperc]
    show (-1 : ℚ) / 1 * 1 < 0
    norm_num

/-! ### Claim C10: catalog order and id index of the result tables -/

/-- Truncating cast back of an integer stored in a float array recovers
the integer. -/
theorem cast_int_intCast (n : Int) : cast_int ((n : ℚ)) = n := by
  unfold cast_int
  rw [Rat.num_intCast, Rat.den_intCast]
  simp

/-- Claim C10.  Both detectors preserve the input catalog order: the
likelihood detector's loop visits stars in magnitude-sorted order (any
permutation of range(n)) but writes each star's row at the star's
original index, and every row at index j is the row computed for star j
(its id column holds star j's id); the filter detector fills rows in
catalog order directly; both returned tables are indexed by the stars'
integer ids. -/
theorem detect_results_catalog_order (C : LLHCtx) (F : FilterCtx)
    (image fimage : Img) (order : List ℕ)
    (h : order.Perm (List.range C.stars.length)) :
    (∀ j, j < C.stars.length →
      ((StarDetectionLLH_detect C image order).2.getD j default).id =
        ((C.stars.getD j default).id : ℚ) ∧
      ∃ im, (StarDetectionLLH_detect C image order).2.getD j default =
        C.row im j) ∧
    detect_index (StarDetectionLLH_detect C image order).2 =
      C.stars.map (fun s => s.id) ∧
    (∀ j, j < F.stars.length →
      (StarDetectionFilter_detect F fimage).getD j default =
        F.frow (F.log fimage F.sigma) j) ∧
    filter_index (StarDetectionFilter_detect F fimage) =
      F.stars.map (fun s => s.id) := by
  have hnd : order.Nodup := (h.nodup_iff).mpr (List.nodup_range _)
  have hlen0 : (List.replicate C.stars.length (default : Row)).length =
      C.stars.length := List.length_replicate _ _
  have hrowlen : (StarDetectionLLH_detect C image order).2.length =
      C.stars.length := by
    unfold StarDetectionLLH_detect
    rw [foldl_step_length]
    exact hlen0
  have hpoint : ∀ j, j < C.stars.length →
      ∃ im, (StarDetectionLLH_detect C image order).2.getD j default =
        C.row im j := by
    intro j hj
    unfold StarDetectionLLH_detect
    exact foldl_step_mem C order hnd _ j
      (h.mem_iff.mpr (List.mem_range.mpr hj)) (by rw [hlen0]; exact hj)
  refine ⟨?_, ?_, ?_, ?_⟩
  · intro j hj
    obtain ⟨im, him⟩ := hpoint j hj
    exact ⟨by rw [him]; rfl, ⟨im, him⟩⟩
  · apply List.ext_getElem
    · simp only [detect_index, List.length_map]
      rw [hrowlen]
    · intro n h1 h2
      have hn : n < C.stars.length := by
        rw [List.length_map] at h2
        exact h2
      obtain ⟨im, him⟩ := hpoint n hn
      simp only [detect_index, List.getElem_map]
      rw [← List.getD_eq_getElem (StarDetectionLLH_detect C image order).2
        default (by rw [hrowlen]; exact hn), him,
        ← List.getD_eq_getElem C.stars default hn]
      exact cast_int_intCast (C.stars.getD n default).id
  · intro j hj
    unfold StarDetectionFilter_detect
    rw [List.getD_eq_getElem _ default
      (by rw [List.length_map, List.length_range]; exact hj)]
    simp only [List.getElem_map, List.getElem_range]
  · apply List.ext_getElem
    · simp only [filter_index, StarDetectionFilter_detect, List.length_map,
        List.length_range]
    · intro n h1 h2
      have hn : n < F.stars.length := by
        rw [List.length_map] at h2
        exact h2
      simp only [filter_index, StarDetectionFilter_detect, List.getElem_map,
        List.getElem_range]
      rw [← List.getD_eq_getElem F.stars default hn]
      exact cast_int_intCast (F.stars.getD n default).id

/-- Concrete likelihood context used to witness claim C10. -/
def C10Lctx : LLHCtx :=
  { sigma := 1, size := (1, 1), presmoothing := 1,
    remove_detected_stars := true,
    gaussian := fun img _ => img, expQ := fun _ => 1,
    opt := fun _ _ => ⟨1, 1, 1, 1⟩, calibration := 1,
    stars := [{ id := 7, mag := 0, x := 0, y := 0 }] }

/-- Concrete filter context used to witness claim C10. -/
def C10Fctx : FilterCtx :=
  { sigma := 1, size := (1, 1), quantile := 100,
    log := fun _ _ => [[0]], expQ := fun _ => 1, calibration := 1,
    stars := [{ id := 3, mag := 0, x := 0, y := 0 }] }

/-- Witness for claim C10's theorem: both concrete result tables are
indexed by the stars' integer ids. -/
theorem detect_results_catalog_order_witness :
    ([0].Perm (List.range C10Lctx.stars.length)) ∧
    detect_index (StarDetectionLLH_detect C10Lctx [[1]] [0]).2 =
      C10Lctx.stars.map (fun s => s.id) ∧
    filter_index (StarDetectionFilter_detect C10Fctx [[1]]) =
      C10Fctx.stars.map (fun s => s.id) :=
  ⟨by decide,
   (detect_results_catalog_order C10Lctx C10Fctx [[1]] [[1]] [0]
     (by decide)).2.1,
   (detect_results_catalog_order C10Lctx C10Fctx [[1]] [[1]] [0]
     (by decide)).2.2.2⟩

end Quocca
